import Mathlib

/-!
Verification of the snapd async-change client (`checkbox_support.snap_utils.snapd`,
class `Snapd`) of the Checkbox repository.

The module under test (`snapd.py`) is not present in the source tree that ships
with this development; only its unit tests
(`checkbox_support/snap_utils/tests/test_snapd.py`) are.  All definitions below
are therefore modelled from the specification's description of the polling
algorithm, the progress-message formatter and the action-submission operations,
and checked for consistency with the behaviours pinned down by the unit tests.
-/

namespace SnapdModel

/-- Modelled from the spec: a Task record as consumed by `_poll_change`
(`{"summary": string, "status": string, "progress": {"label": string,
"done": int, "total": int}}`), with the progress fields inlined. -/
structure Task where
  summary : String
  status : String
  label : String
  done : Nat
  total : Nat
deriving DecidableEq

/-- Modelled from the spec: round-half-to-even of the fraction `num / den`
to the nearest integer, the rounding mode of Python's builtin `round`. -/
def roundTiesEven (num den : Nat) : Nat :=
  let q := num / den
  let r := num % den
  if 2 * r < den then q
  else if den < 2 * r then q + 1
  else if q % 2 = 0 then q else q + 1

/-- Modelled from the spec: the percentage `round(100 * done / total, 1)`
scaled by 10, i.e. the number of tenths of a percent. -/
def pctTenths (done total : Nat) : Nat :=
  roundTiesEven (1000 * done) total

/-- Modelled from the spec: the rendered percentage with one decimal place,
e.g. `pctString 1 2 = "50.0"`. -/
def pctString (done total : Nat) : String :=
  let t := pctTenths done total
  toString (t / 10) ++ "." ++ toString (t % 10)

/-- Modelled from the spec: base progress message `"(status) summary"`. -/
def baseMsg (t : Task) : String :=
  "(" ++ t.status ++ ") " ++ t.summary

/-- Modelled from the spec: if the progress label is non-empty, `" label"`
is appended to the base message; otherwise nothing. -/
def labelPart (t : Task) : String :=
  if t.label = "" then "" else " " ++ t.label

/-- Modelled from the spec: the percentage suffix `" (p%)"` is shown only
when `total > 1` (the degenerate `done = total = 1` case is suppressed and
`total = 0` is omitted by the same explicit branch, so no division by zero
can occur). -/
def pctPart (t : Task) : String :=
  if 1 < t.total then " (" ++ pctString t.done t.total ++ "%)" else ""

/-- Modelled from the spec: the full progress message emitted via `_info`
for an in-progress task: base message, then optional label, then optional
percentage suffix. -/
def progressMsg (t : Task) : String :=
  baseMsg t ++ labelPart t ++ pctPart t

/-- Modelled from the spec: `find the task whose own status is ...` —
the first task in the change's task list whose status matches. -/
def findTask (status : String) (tasks : List Task) : Option Task :=
  tasks.find? (fun t => t.status == status)

/-- Modelled from the spec: the environment a polling run observes — the
change status returned by `self.change(change_id)` on the n-th loop
iteration, the task list returned by `self.tasks(change_id)` on that
iteration, and the value of `time.time()` on its n-th call (call 0 is the
start-time recording, call n+1 is the timeout check of iteration n). -/
structure PollEnv where
  change : Nat → String
  tasks : Nat → List Task
  clock : Nat → Int

/-- Modelled from the spec: the timeout check of iteration `i` —
`time.time() - start > task_timeout`, a strict comparison. -/
def timeoutExceeded (env : PollEnv) (timeout : Int) (i : Nat) : Bool :=
  timeout < env.clock (i + 1) - env.clock 0

/-- Outcome of a polling run. `success` is `_poll_change` returning `True`;
`errorRaised` and `timeoutRaised` are the two `AsyncException` raises
(daemon-reported failure and timeout); `fuelOut` is the model artifact for
a run still looping after the given number of iterations (the Python loop
has no iteration bound). -/
inductive PollResult where
  | success : PollResult
  | errorRaised : String → PollResult
  | timeoutRaised : PollResult
  | fuelOut : PollResult
deriving DecidableEq

/-- Modelled from the spec: whether iteration `i` terminates the loop, and
how.  `none` means the loop continues: the status was neither "Done" nor
"Error" and the timeout budget was not exceeded.  For "Error" the raised
exception carries the diagnostic message of the erroring task. -/
def stepOutcome (env : PollEnv) (timeout : Int) (i : Nat) : Option PollResult :=
  let st := env.change i
  if st = "Done" then some .success
  else if st = "Error" then
    some (.errorRaised
      (match findTask "Error" (env.tasks i) with
       | some t => "(Error) " ++ t.summary
       | none => ""))
  else if timeoutExceeded env timeout i then some .timeoutRaised
  else none

/-- Modelled from the spec: the messages emitted via `_info` during
iteration `i`: the diagnostic message for an "Error" status, the progress
message of the matching task for "Doing"/"Wait", nothing otherwise. -/
def stepMsgs (env : PollEnv) (i : Nat) : List String :=
  let st := env.change i
  if st = "Error" then
    match findTask "Error" (env.tasks i) with
    | some t => ["(Error) " ++ t.summary]
    | none => []
  else if st = "Doing" ∨ st = "Wait" then
    match findTask st (env.tasks i) with
    | some t => [progressMsg t]
    | none => []
  else []

/-- Modelled from the spec: the polling loop of `_poll_change` from
iteration `i` on, with `log` the messages emitted so far and `fuel`
bounding the number of remaining iterations.  Returns the outcome and the
full emission log. -/
def pollChangeAux (env : PollEnv) (timeout : Int) :
    Nat → Nat → List String → PollResult × List String
  | 0, _, log => (.fuelOut, log)
  | fuel + 1, i, log =>
    match stepOutcome env timeout i with
    | some r => (r, log ++ stepMsgs env i)
    | none => pollChangeAux env timeout fuel (i + 1) (log ++ stepMsgs env i)

/-- Modelled from the spec: `Snapd._poll_change`, run for at most `fuel`
iterations of the polling loop. -/
def poll_change (env : PollEnv) (timeout : Int) (fuel : Nat) :
    PollResult × List String :=
  pollChangeAux env timeout fuel 0 []

/-- The emission log only grows: anything logged before some iteration is
still in the final log. -/
theorem pollChangeAux_log_mono (env : PollEnv) (timeout : Int) :
    ∀ (fuel i : Nat) (log : List String) (m : String), m ∈ log →
      m ∈ (pollChangeAux env timeout fuel i log).2 := by
  intro fuel
  induction fuel with
  | zero => intro i log m hm; simpa [pollChangeAux] using hm
  | succ n ih =>
    intro i log m hm
    simp only [pollChangeAux]
    cases h : stepOutcome env timeout i with
    | some r => simp [hm]
    | none => exact ih (i + 1) (log ++ stepMsgs env i) m (by simp [hm])

/-- If every iteration in `[i, i + k)` continues, the run from `i` with
`k + fuel` iterations of budget coincides with the run from `i + k` with
budget `fuel`, over a log that extends the starting one. -/
theorem pollChangeAux_skip (env : PollEnv) (timeout : Int) :
    ∀ (k fuel i : Nat) (log : List String),
      (∀ j, j < k → stepOutcome env timeout (i + j) = none) →
      ∃ log2, (∀ m, m ∈ log → m ∈ log2) ∧
        pollChangeAux env timeout (k + fuel) i log =
          pollChangeAux env timeout fuel (i + k) log2 := by
  intro k
  induction k with
  | zero =>
    intro fuel i log _
    exact ⟨log, fun m hm => hm, by simp⟩
  | succ n ih =>
    intro fuel i log h
    have h0 : stepOutcome env timeout i = none := by simpa using h 0 (Nat.succ_pos n)
    have hstep : pollChangeAux env timeout (n + 1 + fuel) i log =
        pollChangeAux env timeout (n + fuel) (i + 1) (log ++ stepMsgs env i) := by
      have harith : n + 1 + fuel = (n + fuel) + 1 := by omega
      rw [harith]
      simp [pollChangeAux, h0]
    obtain ⟨log2, hmem, heq⟩ := ih fuel (i + 1) (log ++ stepMsgs env i)
      (fun j hj => by
        have := h (j + 1) (by omega)
        simpa [Nat.add_assoc, Nat.add_comm 1 j] using this)
    refine ⟨log2, fun m hm => hmem m (by simp [hm]), ?_⟩
    rw [hstep, heq]
    have : i + 1 + n = i + (n + 1) := by omega
    rw [this]

/-- A terminal iteration: if iteration `i` has outcome `r`, a run reaching
`i` with positive budget ends with `r` and the iteration's messages
appended to the log. -/
theorem pollChangeAux_terminal (env : PollEnv) (timeout : Int) (fuel i : Nat)
    (log : List String) (r : PollResult)
    (h : stepOutcome env timeout i = some r) :
    pollChangeAux env timeout (fuel + 1) i log = (r, log ++ stepMsgs env i) := by
  simp [pollChangeAux, h]

/-- A full run that continues through iterations `0, ..., i - 1` and hits a
terminal outcome `r` at iteration `i` ends with `r`, and every message of
iteration `i` is in the final log. -/
theorem poll_change_run (env : PollEnv) (timeout : Int) (fuel i : Nat) (r : PollResult)
    (hreach : ∀ j, j < i → stepOutcome env timeout j = none)
    (hterm : stepOutcome env timeout i = some r)
    (hfuel : i < fuel) :
    (poll_change env timeout fuel).1 = r ∧
      ∀ m, m ∈ stepMsgs env i → m ∈ (poll_change env timeout fuel).2 := by
  obtain ⟨log2, hmem, heq⟩ := pollChangeAux_skip env timeout i (fuel - i) 0 []
    (fun j hj => by simpa using hreach j hj)
  have hfe : i + (fuel - i) = fuel := by omega
  have hfe2 : fuel - i = (fuel - i - 1) + 1 := by omega
  have heq2 : poll_change env timeout fuel = (r, log2 ++ stepMsgs env i) := by
    unfold poll_change
    rw [← hfe, heq, hfe2]
    simp only [Nat.zero_add]
    exact pollChangeAux_terminal env timeout (fuel - i - 1) i log2 r hterm
  rw [heq2]
  exact ⟨rfl, fun m hm => by simp [hm]⟩

end SnapdModel

namespace SnapdModel

/-- Modelled from the spec: subset of the daemon response consumed by the
action operations: `{"type": ..., "status": ..., "change": ...}`. -/
structure DaemonResponse where
  type : String
  status : String
  change : String
deriving DecidableEq

/-- Result of an action submission: the daemon's response, returned as-is,
and the change id passed to `_poll_change` (`none` when polling was not
invoked). -/
structure ActionResult where
  response : DaemonResponse
  polled : Option String
deriving DecidableEq

/-- Modelled from the spec: the shared post-submission logic of the action
operations — extract the change id and poll exactly when the response
status is "Accepted", and return the raw response in all cases. -/
def submitAction (r : DaemonResponse) : ActionResult :=
  ⟨r, if r.status = "Accepted" then some r.change else none⟩

/-- Modelled from the spec: JSON body of `install` —
`action, channel` and, when given, `revision`. -/
def installBody (channel : String) (revision : Option String) :
    List (String × String) :=
  [("action", "install"), ("channel", channel)] ++
    (match revision with
     | some r => [("revision", r)]
     | none => [])

/-- Modelled from the spec: JSON body of `remove` — `action` and, when
given, `revision`. -/
def removeBody (revision : Option String) : List (String × String) :=
  [("action", "remove")] ++
    (match revision with
     | some r => [("revision", r)]
     | none => [])

/-- Modelled from the spec: JSON body of `connect_or_disconnect` —
`action`, a one-element slots list and a one-element plugs list, flattened
to dotted keys. -/
def connectBody (action slotSnap slotName plugSnap plugName : String) :
    List (String × String) :=
  [("action", action), ("slots.snap", slotSnap), ("slots.slot", slotName),
   ("plugs.snap", plugSnap), ("plugs.plug", plugName)]

/-- Modelled from the spec: `Snapd.install(name, channel, revision)`, with
`post` standing for the transport `_post(endpoint, body)`. -/
def install (post : String → List (String × String) → DaemonResponse)
    (name channel : String) (revision : Option String) : ActionResult :=
  submitAction (post ("/v2/snaps/" ++ name) (installBody channel revision))

/-- Modelled from the spec: `Snapd.remove(name, revision)`. -/
def remove (post : String → List (String × String) → DaemonResponse)
    (name : String) (revision : Option String) : ActionResult :=
  submitAction (post ("/v2/snaps/" ++ name) (removeBody revision))

/-- Modelled from the spec: `Snapd.connect_or_disconnect(slot_snap,
slot_name, plug_snap, plug_name, action)`. -/
def connect_or_disconnect (post : String → List (String × String) → DaemonResponse)
    (slotSnap slotName plugSnap plugName action : String) : ActionResult :=
  submitAction
    (post "/v2/interfaces" (connectBody action slotSnap slotName plugSnap plugName))

end SnapdModel

namespace SnapdModel

/-- Claim C5: for a task with summary "Test", status "Doing" and progress
`{label: "", done: 1, total: 1}` the emitted message is exactly
"(Doing) Test" (no percentage suffix in the degenerate case), and with
`done: 1, total: 2` the message ends with the suffix " (50.0%)", the
percentage being `round(100 * done / total, 1)`. -/
theorem progress_msg_degenerate_and_half :
    progressMsg ⟨"Test", "Doing", "", 1, 1⟩ = "(Doing) Test" ∧
    progressMsg ⟨"Test", "Doing", "", 1, 2⟩ = "(Doing) Test" ++ " (50.0%)" ∧
    pctString 1 2 = "50.0" ∧ pctTenths 1 2 = 500 := by
  refine ⟨?_, ?_, ?_, ?_⟩ <;> rfl

/-- Claim C6: whenever a task's progress label is non-empty, the formatted
message is the base message `"(status) summary"` with `" label"` appended
(followed by the percentage part), so the label appears in the emitted
message. -/
theorem progress_msg_label_appended (t : Task) (h : t.label ≠ "") :
    progressMsg t = baseMsg t ++ (" " ++ t.label) ++ pctPart t := by
  simp [progressMsg, labelPart, h, String.append_assoc]

theorem progress_msg_label_appended_witness :
    (Task.mk "Test" "Doing" "Downloading" 1 2).label ≠ "" ∧
      progressMsg ⟨"Test", "Doing", "Downloading", 1, 2⟩ =
        baseMsg ⟨"Test", "Doing", "Downloading", 1, 2⟩ ++
          (" " ++ "Downloading") ++ pctPart ⟨"Test", "Doing", "Downloading", 1, 2⟩ :=
  ⟨by decide, progress_msg_label_appended ⟨"Test", "Doing", "Downloading", 1, 2⟩ (by decide)⟩

/-- Claim C9: when a task's progress total is 0, the percentage suffix is omitted
entirely by the explicit `total > 1` branch, so the formatter performs no
division and the message is just the base message plus the label part;
formatting is a total function for every progress record. -/
theorem progress_msg_total_zero (t : Task) (h : t.total = 0) :
    pctPart t = "" ∧ progressMsg t = baseMsg t ++ labelPart t := by
  constructor
  · simp [pctPart, h]
  · simp [progressMsg, pctPart, h]

theorem progress_msg_total_zero_witness :
    (Task.mk "Test" "Doing" "" 1 0).total = 0 ∧
      (pctPart ⟨"Test", "Doing", "", 1, 0⟩ = "" ∧
        progressMsg ⟨"Test", "Doing", "", 1, 0⟩ =
          baseMsg ⟨"Test", "Doing", "", 1, 0⟩ ++ labelPart ⟨"Test", "Doing", "", 1, 0⟩) :=
  ⟨rfl, progress_msg_total_zero ⟨"Test", "Doing", "", 1, 0⟩ rfl⟩

end SnapdModel

namespace SnapdModel

/-- Claim C1: in every polling run whose observed change status is "Error",
`_poll_change` emits via `_info` the diagnostic message
`"(Error) " ++ summary` of the task whose own status is "Error", and then
raises the `AsyncException` carrying that message instead of returning. -/
theorem poll_change_error_raises (env : PollEnv) (timeout : Int) (fuel i : Nat)
    (tk : Task)
    (hreach : ∀ j, j < i → stepOutcome env timeout j = none)
    (hst : env.change i = "Error")
    (htask : findTask "Error" (env.tasks i) = some tk)
    (hfuel : i < fuel) :
    (poll_change env timeout fuel).1 = PollResult.errorRaised ("(Error) " ++ tk.summary) ∧
      ("(Error) " ++ tk.summary) ∈ (poll_change env timeout fuel).2 := by
  have hterm : stepOutcome env timeout i
      = some (PollResult.errorRaised ("(Error) " ++ tk.summary)) := by
    simp [stepOutcome, hst, htask]
  have hmsg : stepMsgs env i = ["(Error) " ++ tk.summary] := by
    simp [stepMsgs, hst, htask]
  obtain ⟨h1, h2⟩ := poll_change_run env timeout fuel i _ hreach hterm hfuel
  exact ⟨h1, h2 _ (by simp [hmsg])⟩

theorem poll_change_error_raises_witness :
    (poll_change ⟨fun _ => "Error", fun _ => [⟨"Test", "Error", "", 1, 1⟩], fun _ => 0⟩
        0 1).1 = PollResult.errorRaised "(Error) Test" ∧
      "(Error) Test" ∈
        (poll_change ⟨fun _ => "Error", fun _ => [⟨"Test", "Error", "", 1, 1⟩], fun _ => 0⟩
          0 1).2 := by
  have h := poll_change_error_raises
    ⟨fun _ => "Error", fun _ => [⟨"Test", "Error", "", 1, 1⟩], fun _ => 0⟩
    0 1 0 ⟨"Test", "Error", "", 1, 1⟩
    (fun j hj => absurd hj (Nat.not_lt_zero j)) rfl rfl Nat.zero_lt_one
  exact h

/-- Claim C2: in every polling run in which the change status is observed
as "Done" after any finite number of "Doing" observations (during which
the timeout budget was not exceeded), `_poll_change` returns success
(`True`) without raising. -/
theorem poll_change_done_succeeds (env : PollEnv) (timeout : Int) (fuel i : Nat)
    (hdoing : ∀ j, j < i → env.change j = "Doing")
    (hnoto : ∀ j, j < i → timeoutExceeded env timeout j = false)
    (hdone : env.change i = "Done")
    (hfuel : i < fuel) :
    (poll_change env timeout fuel).1 = PollResult.success := by
  have hreach : ∀ j, j < i → stepOutcome env timeout j = none := by
    intro j hj
    simp [stepOutcome, hdoing j hj, hnoto j hj]
  have hterm : stepOutcome env timeout i = some PollResult.success := by
    simp [stepOutcome, hdone]
  exact (poll_change_run env timeout fuel i _ hreach hterm hfuel).1

theorem poll_change_done_succeeds_witness :
    (poll_change
        ⟨fun j => if j = 0 then "Doing" else "Done",
         fun _ => [⟨"Test", "Doing", "", 1, 1⟩], fun _ => 0⟩ 0 2).1
      = PollResult.success :=
  poll_change_done_succeeds
    ⟨fun j => if j = 0 then "Doing" else "Done",
     fun _ => [⟨"Test", "Doing", "", 1, 1⟩], fun _ => 0⟩ 0 2 1
    (by decide) (by decide) (by decide) (by decide)

/-- Claim C3: in every polling run in which elapsed wall-clock time
strictly exceeds the timeout budget `_task_timeout` while the change
status has not reached a terminal state, `_poll_change` raises the
timeout `AsyncException` instead of looping forever. -/
theorem poll_change_timeout_raises (env : PollEnv) (timeout : Int) (fuel i : Nat)
    (hnt : ∀ j, j ≤ i → env.change j ≠ "Done" ∧ env.change j ≠ "Error")
    (hnoto : ∀ j, j < i → timeoutExceeded env timeout j = false)
    (hex : timeoutExceeded env timeout i = true)
    (hfuel : i < fuel) :
    (poll_change env timeout fuel).1 = PollResult.timeoutRaised := by
  have hreach : ∀ j, j < i → stepOutcome env timeout j = none := by
    intro j hj
    obtain ⟨h1, h2⟩ := hnt j (le_of_lt hj)
    simp [stepOutcome, h1, h2, hnoto j hj]
  have hterm : stepOutcome env timeout i = some PollResult.timeoutRaised := by
    obtain ⟨h1, h2⟩ := hnt i le_rfl
    simp [stepOutcome, h1, h2, hex]
  exact (poll_change_run env timeout fuel i _ hreach hterm hfuel).1

theorem poll_change_timeout_raises_witness :
    (poll_change ⟨fun _ => "Unknown", fun _ => [], fun n => (n : Int)⟩ 0 1).1
      = PollResult.timeoutRaised :=
  poll_change_timeout_raises
    ⟨fun _ => "Unknown", fun _ => [], fun n => (n : Int)⟩ 0 1 0
    (by decide) (by decide) (by decide) (by decide)

/-- Claim C7: whenever `_poll_change` observes change status "Wait", it
emits the formatted progress message of the task whose status matches as
informational and continues the polling loop — "Wait" is not terminal:
that iteration neither returns nor raises (provided the timeout budget is
not exceeded). -/
theorem poll_change_wait_continues (env : PollEnv) (timeout : Int) (fuel i : Nat)
    (log : List String) (tk : Task)
    (hst : env.change i = "Wait")
    (hto : timeoutExceeded env timeout i = false)
    (htask : findTask "Wait" (env.tasks i) = some tk) :
    stepOutcome env timeout i = none ∧
      pollChangeAux env timeout (fuel + 1) i log =
        pollChangeAux env timeout fuel (i + 1) (log ++ [progressMsg tk]) := by
  have ho : stepOutcome env timeout i = none := by
    simp [stepOutcome, hst, hto]
  have hm : stepMsgs env i = [progressMsg tk] := by
    simp [stepMsgs, hst, htask]
  exact ⟨ho, by simp [pollChangeAux, ho, hm]⟩

theorem poll_change_wait_continues_witness :
    (PollEnv.mk (fun _ => "Wait") (fun _ => [⟨"Test", "Wait", "", 1, 1⟩])
        (fun _ => 0)).change 0 = "Wait" ∧
    timeoutExceeded
        ⟨fun _ => "Wait", fun _ => [⟨"Test", "Wait", "", 1, 1⟩], fun _ => 0⟩ 0 0 = false ∧
    (stepOutcome ⟨fun _ => "Wait", fun _ => [⟨"Test", "Wait", "", 1, 1⟩], fun _ => 0⟩ 0 0
        = none ∧
      pollChangeAux ⟨fun _ => "Wait", fun _ => [⟨"Test", "Wait", "", 1, 1⟩], fun _ => 0⟩
          0 (0 + 1) 0 [] =
        pollChangeAux ⟨fun _ => "Wait", fun _ => [⟨"Test", "Wait", "", 1, 1⟩], fun _ => 0⟩
          0 0 (0 + 1) ([] ++ [progressMsg ⟨"Test", "Wait", "", 1, 1⟩])) :=
  ⟨rfl, rfl,
    poll_change_wait_continues
      ⟨fun _ => "Wait", fun _ => [⟨"Test", "Wait", "", 1, 1⟩], fun _ => 0⟩
      0 0 0 [] ⟨"Test", "Wait", "", 1, 1⟩ rfl rfl rfl⟩

/-- Claim C8: a status outside Done, Error, Doing, Wait neither returns nor
raises on its own observation — the iteration continues whenever the
timeout budget is not exceeded — so a change that stays in an unrecognized
status forever can only end the loop through the timeout error (or keep
looping, `fuelOut` in the bounded model). -/
theorem poll_change_unknown_status (env : PollEnv) (timeout : Int) (fuel : Nat)
    (hunk : ∀ i : Nat, env.change i ≠ "Done" ∧ env.change i ≠ "Error" ∧
      env.change i ≠ "Doing" ∧ env.change i ≠ "Wait") :
    (∀ i, timeoutExceeded env timeout i = false → stepOutcome env timeout i = none) ∧
      ((poll_change env timeout fuel).1 = PollResult.timeoutRaised ∨
        (poll_change env timeout fuel).1 = PollResult.fuelOut) := by
  have hstep : ∀ i, stepOutcome env timeout i = none ∨
      stepOutcome env timeout i = some PollResult.timeoutRaised := by
    intro i
    obtain ⟨h1, h2, _, _⟩ := hunk i
    by_cases hto : timeoutExceeded env timeout i
    · right; simp [stepOutcome, h1, h2, hto]
    · left; simp [stepOutcome, h1, h2, hto]
  constructor
  · intro i hto
    obtain ⟨h1, h2, _, _⟩ := hunk i
    simp [stepOutcome, h1, h2, hto]
  · suffices h : ∀ (f i : Nat) (log : List String),
        (pollChangeAux env timeout f i log).1 = PollResult.timeoutRaised ∨
          (pollChangeAux env timeout f i log).1 = PollResult.fuelOut by
      exact h fuel 0 []
    intro f
    induction f with
    | zero => intro i log; right; rfl
    | succ n ih =>
      intro i log
      rcases hstep i with h | h
      · simpa [pollChangeAux, h] using ih (i + 1) (log ++ stepMsgs env i)
      · left; simp [pollChangeAux, h]

theorem poll_change_unknown_status_witness :
    (∀ i, timeoutExceeded ⟨fun _ => "Hold", fun _ => [], fun n => (n : Int)⟩ 0 i = false →
        stepOutcome ⟨fun _ => "Hold", fun _ => [], fun n => (n : Int)⟩ 0 i = none) ∧
      ((poll_change ⟨fun _ => "Hold", fun _ => [], fun n => (n : Int)⟩ 0 1).1
          = PollResult.timeoutRaised ∨
        (poll_change ⟨fun _ => "Hold", fun _ => [], fun n => (n : Int)⟩ 0 1).1
          = PollResult.fuelOut) :=
  poll_change_unknown_status ⟨fun _ => "Hold", fun _ => [], fun n => (n : Int)⟩ 0 1
    (fun i =>
      ⟨(by decide : ("Hold" : String) ≠ "Done"),
       (by decide : ("Hold" : String) ≠ "Error"),
       (by decide : ("Hold" : String) ≠ "Doing"),
       (by decide : ("Hold" : String) ≠ "Wait")⟩)

/-- Claim C10: the timeout comparison is strict — when elapsed time equals
the budget exactly (in particular a budget of 0 with no clock advance),
the timeout check is false and a non-terminal iteration continues with the
normal status handling rather than raising. -/
theorem timeout_check_strict (env : PollEnv) (timeout : Int) (i : Nat)
    (heq : env.clock (i + 1) - env.clock 0 = timeout)
    (h1 : env.change i ≠ "Done") (h2 : env.change i ≠ "Error") :
    timeoutExceeded env timeout i = false ∧ stepOutcome env timeout i = none := by
  have hto : timeoutExceeded env timeout i = false := by
    simp [timeoutExceeded, heq]
  exact ⟨hto, by simp [stepOutcome, h1, h2, hto]⟩

theorem timeout_check_strict_witness :
    (PollEnv.mk (fun _ => "Doing") (fun _ => []) (fun _ => 0)).clock (0 + 1)
        - (PollEnv.mk (fun _ => "Doing") (fun _ => []) (fun _ => 0)).clock 0 = 0 ∧
      (timeoutExceeded ⟨fun _ => "Doing", fun _ => [], fun _ => 0⟩ 0 0 = false ∧
        stepOutcome ⟨fun _ => "Doing", fun _ => [], fun _ => 0⟩ 0 0 = none) :=
  ⟨rfl, timeout_check_strict ⟨fun _ => "Doing", fun _ => [], fun _ => 0⟩ 0 0
    rfl (by decide) (by decide)⟩

/-- Claim C4: every action submission (install, remove,
connect_or_disconnect) returns the daemon's response as-is, and invokes
`_poll_change` with the change id extracted from the response exactly when
the response status is "Accepted" — for any other status polling is not
invoked. -/
theorem actions_poll_iff_accepted
    (post : String → List (String × String) → DaemonResponse)
    (name channel : String) (revision : Option String)
    (slotSnap slotName plugSnap plugName action : String) :
    ((install post name channel revision).response
        = post ("/v2/snaps/" ++ name) (installBody channel revision) ∧
      (install post name channel revision).polled
        = (if (post ("/v2/snaps/" ++ name) (installBody channel revision)).status
              = "Accepted"
           then some (post ("/v2/snaps/" ++ name) (installBody channel revision)).change
           else none)) ∧
    ((remove post name revision).response
        = post ("/v2/snaps/" ++ name) (removeBody revision) ∧
      (remove post name revision).polled
        = (if (post ("/v2/snaps/" ++ name) (removeBody revision)).status = "Accepted"
           then some (post ("/v2/snaps/" ++ name) (removeBody revision)).change
           else none)) ∧
    ((connect_or_disconnect post slotSnap slotName plugSnap plugName action).response
        = post "/v2/interfaces" (connectBody action slotSnap slotName plugSnap plugName) ∧
      (connect_or_disconnect post slotSnap slotName plugSnap plugName action).polled
        = (if (post "/v2/interfaces"
                (connectBody action slotSnap slotName plugSnap plugName)).status
              = "Accepted"
           then some (post "/v2/interfaces"
                (connectBody action slotSnap slotName plugSnap plugName)).change
           else none)) :=
  ⟨⟨rfl, rfl⟩, ⟨rfl, rfl⟩, ⟨rfl, rfl⟩⟩

end SnapdModel
